import Mathlib

/-!
Shallow embedding of `wagtailstreamforms/views/submission_list.py`
(`SubmissionListView` and its helpers), with theorems settling the
specification claims about date filtering, CSV/XLSX export, per-cell
preprocessing dispatch, permission/404 control flow and pagination.
-/

set_option autoImplicit false

namespace Streamforms

/-- A submission field value as it appears in `submission.get_data()`:
a string, a list of strings (multi-select fields), or a `datetime.date` /
`datetime.time` object.  Dates and times carry their `str()` rendering as
an abstract payload; only their runtime class matters to the code. -/
inductive Value where
  | str (s : String)
  | list (xs : List String)
  | date (iso : String)
  | time (iso : String)
deriving DecidableEq, Repr

/-- Python `str()` on a `Value` (the conversion performed by Django's
`force_str` on a non-string object; the identity on strings).
`str` of a Python list renders the elements with `repr`, i.e. quoted:
`str(['a', 'b']) = "['a', 'b']"` (quote escaping inside elements is
abstracted away). -/
def pyStr : Value → String
  | Value.str s => s
  | Value.list xs =>
      "[" ++ String.intercalate ", " (xs.map (fun x => "'" ++ x ++ "'")) ++ "]"
  | Value.date iso => iso
  | Value.time iso => iso

/-- `force_str(form_data.get(name))`: Python `dict.get` yields `None` for a
missing key and `force_str(None) = str(None) = "None"`. -/
def forceStrOpt : Option Value → String
  | none => "None"
  | some v => pyStr v

/-- `list_to_str(value) = force_str(", ".join(value))` from the source,
on a list of strings. -/
def list_to_str (xs : List String) : String :=
  String.intercalate ", " xs

/-- One-pass scanner for `strip_tags`: characters between `<` and `>` are
dropped, the rest kept (`inTag` is the scanner state). -/
def stripTagsAux : List Char → Bool → List Char
  | [], _ => []
  | c :: cs, true => if c = '>' then stripTagsAux cs false else stripTagsAux cs true
  | c :: cs, false => if c = '<' then stripTagsAux cs true else c :: stripTagsAux cs false

/-- Django's `strip_tags`: remove HTML tags from a label. -/
def strip_tags (s : String) : String :=
  ⟨stripTagsAux s.data false⟩

/-- The `Form` model as the view uses it: a primary key and
`get_data_fields()`, the ordered list of `(field_name, field_label)`
pairs of the form's schema. -/
structure Form where
  id : Nat
  dataFields : List (String × String)
deriving DecidableEq, Repr

/-- One submission: the owning form's pk, the `submit_time` timestamp
(seconds since an arbitrary epoch, so a calendar day `d` starts at
`86400 * d`), the `get_data()` mapping from field name to value, and the
attached file references. -/
structure Submission where
  formId : Nat
  submitTime : Int
  data : List (String × Value)
  files : List String
deriving DecidableEq, Repr

/-- `submission.get_data().get(name)`: dictionary lookup, `None` when the
key is absent. -/
def getData (s : Submission) (name : String) : Option Value :=
  (s.data.find? (fun kv => kv.1 = name)).map (fun kv => kv.2)

/-- The two export formats, `FORMAT_CSV` and `FORMAT_XLSX`. -/
inductive Fmt where
  | csv
  | xlsx
deriving DecidableEq, Repr

/-- The concrete preprocessing functions appearing in the view's
dispatch tables: `force_str` and `list_to_str`. -/
inductive Pre where
  | toStr
  | listJoin
deriving DecidableEq, Repr

/-- `value.__class__` is `datetime.date` or `datetime.time` (the classes in
the first key of `custom_value_preprocess`). -/
def isDateTime : Value → Bool
  | Value.date _ => true
  | Value.time _ => true
  | _ => false

/-- `isinstance(value, list)`. -/
def isList : Value → Bool
  | Value.list _ => true
  | _ => false

/-- The `custom_field_preprocess` table `{field_name: {format: function}}`,
modelled as its lookup: `cfp field fmt = some f` when the field's inner dict
has an entry for `fmt` (whose value `f` may itself be Python `None`,
i.e. `Option.none`, meaning "write the raw value"). -/
def CFP : Type :=
  String → Fmt → Option (Option Pre)

/-- `SubmissionListView.custom_field_preprocess = {}`: the empty table. -/
def cfpEmpty : CFP :=
  fun _ _ => none

/-- `get_preprocess_function(field, value, export_format)`: a
field+format-specific entry wins outright; otherwise the
`custom_value_preprocess` dict is scanned in insertion order —
`(datetime.date, datetime.time): {xlsx: None}` first, then
`list: {csv: list_to_str, xlsx: list_to_str}` — and the first entry whose
classes match `value` and whose inner dict has `export_format` returns its
function; finally `force_str` is the default. -/
def get_preprocess_function (cfp : CFP) (field : String) (value : Value)
    (fmt : Fmt) : Option Pre :=
  match cfp field fmt with
  | some f => f
  | none =>
      if isDateTime value ∧ fmt = Fmt.xlsx then none
      else if isList value then some Pre.listJoin
      else some Pre.toStr

/-- `", ".join(value)` as `list_to_str` applies it: element-wise on a list;
Python's `join` on a string iterates its characters; on a date or time it
would raise `TypeError` (never reached by the view, modelled as `str`). -/
def joinAsList : Value → String
  | Value.list xs => list_to_str xs
  | Value.str s => String.intercalate ", " (s.data.map (fun c => String.singleton c))
  | v => pyStr v

/-- `processed_value = preprocess_function(value) if preprocess_function
else value` from `write_xlsx_row`. -/
def applyPre : Option Pre → Value → Value
  | none, v => v
  | some Pre.toStr, v => Value.str (pyStr v)
  | some Pre.listJoin, v => Value.str (joinAsList v)

/-- `collections.OrderedDict` assignment `d[k] = v`: if the key exists its
value is replaced in place (the key keeps its original position),
otherwise the pair is appended at the end. -/
def odInsert (d : List (String × Value)) (k : String) (v : Value) :
    List (String × Value) :=
  if d.any (fun p => p.1 = k) then
    d.map (fun p => if p.1 = k then (k, v) else p)
  else d ++ [(k, v)]

/-- `OrderedDict` lookup: the value at the (unique) entry with key `k`. -/
def odGet (d : List (String × Value)) (k : String) : Option Value :=
  (d.find? (fun p => p.1 = k)).map (fun p => p.2)

/-- The header list computed identically by `csv` and `write_xlsx`:
`[force_str(strip_tags(label)) for name, label in data_fields]`
(`force_str` is the identity on the string `strip_tags` returns). -/
def data_headings (form : Form) : List String :=
  form.dataFields.map (fun nl => strip_tags nl.2)

/-- The body of the `csv` method: a header row, then for each submission of
the queryset one row with `force_str(form_data.get(name))` per schema
field, in schema order. -/
def csv_rows (form : Form) (queryset : List Submission) : List (List String) :=
  data_headings form ::
    queryset.map (fun s =>
      form.dataFields.map (fun nl => forceStrOpt (getData s nl.1)))

/-- The `(label, force_str(form_data.get(name)))` pairs in schema order:
the assignments `write_xlsx` performs into its per-row `OrderedDict`.
Note the key is the raw label and the value is already coerced with
`force_str` before any preprocessing runs. -/
def row_pairs (form : Form) (s : Submission) : List (String × Value) :=
  form.dataFields.map (fun nl => (nl.2, Value.str (forceStrOpt (getData s nl.1))))

/-- `OrderedDict` built by repeated assignment from a pair list. -/
def odInsertAll (d : List (String × Value)) (ps : List (String × Value)) :
    List (String × Value) :=
  ps.foldl (fun acc p => odInsert acc p.1 p.2) d

/-- The `data_dict` that `write_xlsx` builds for one submission: an
`OrderedDict` keyed by field label, assigned in schema order. -/
def xlsx_row_dict (form : Form) (s : Submission) : List (String × Value) :=
  odInsertAll [] (row_pairs form s)

/-- `write_xlsx_row`: one `worksheet.write(row, col, processed)` per entry of
the row dict, with the preprocessing function resolved by
`get_preprocess_function` for the xlsx format. -/
def write_xlsx_row (cfp : CFP) (rowDict : List (String × Value))
    (rowNumber : Nat) : List (Nat × Nat × Value) :=
  rowDict.enum.map (fun cz =>
    (rowNumber, cz.1, applyPre (get_preprocess_function cfp cz.2.1 cz.2.2 Fmt.xlsx) cz.2.2))

/-- `write_xlsx`: the full list of `worksheet.write` calls — the stripped
headings on row 0, then for each queryset item a row at `row_number + 1`
written from its label-keyed `OrderedDict` (with the view's empty
`custom_field_preprocess`). -/
def write_xlsx (form : Form) (queryset : List Submission) :
    List (Nat × Nat × Value) :=
  (data_headings form).enum.map (fun ch => (0, ch.1, Value.str ch.2))
    ++ (queryset.enum.map (fun ri =>
          write_xlsx_row cfpEmpty (xlsx_row_dict form ri.2) (ri.1 + 1))).flatten

/-- Modelled from the spec: `SelectDateForm(request.GET)` (the form class is
not part of the listed source) — its outcome is whether the bound form
`is_valid()` and the optional cleaned `date_from` / `date_to` calendar
dates, given as day numbers. -/
structure FilterForm where
  valid : Bool
  date_from : Option Int
  date_to : Option Int
deriving DecidableEq, Repr

/-- Midnight at the start of calendar day `d`, as a `submit_time`
timestamp: Django compares a `DateField` value to a `DateTimeField` at
midnight of that day, and `datetime.timedelta(days=1)` adds one day. -/
def dateTs (d : Int) : Int :=
  86400 * d

/-- `get_queryset`: the submissions of the resolved form, then — only when
the filter form validates — `submit_time__gte=date_from` for a present
`date_from` and `submit_time__lte=date_to + timedelta(days=1)` for a
present `date_to` (`prefetch_related` does not change the set). -/
def get_queryset (form : Form) (subs : List Submission) (f : FilterForm) :
    List Submission :=
  let base := subs.filter (fun s => s.formId = form.id)
  if f.valid then
    let q1 := match f.date_from with
      | some df => base.filter (fun s => dateTs df ≤ s.submitTime)
      | none => base
    match f.date_to with
    | some dt => q1.filter (fun s => s.submitTime ≤ dateTs (dt + 1))
    | none => q1
  else base

/-- The `action` query parameter: `CSV`, `EXCEL`, or anything else (the
plain HTML listing). -/
inductive Action where
  | csv
  | excel
  | html
deriving DecidableEq, Repr

/-- One request to the view: the URL's form pk, the `action` and `p` query
parameters, and the parsed date-filter form. -/
structure Request where
  pk : Nat
  action : Action
  p : Nat
  filter : FilterForm

/-- The database the view can query, with the registered
`construct_form_queryset` hooks composed into one function applied to
`Form.objects.all()`. -/
structure DB where
  forms : List Form
  subs : List Submission
  hook : List Form → List Form

/-- The database queries the view can issue, for ordering claims: the
`qs.get(pk=pk)` form lookup and the evaluation of the submission
queryset. -/
inductive Ev where
  | formQuery
  | submissionQuery
deriving DecidableEq, Repr

/-- The response the view ends with. -/
inductive Response where
  | denied
  | notFound
  | csvAttachment (rows : List (List String))
  | xlsxAttachment (writes : List (Nat × Nat × Value))
  | htmlPage (rows : List Submission)
deriving Repr

/-- `SubmissionListView.paginate_by`. -/
def paginate_by : Nat := 25

/-- Modelled from the spec: Django's `ListView` pagination applied by
`super().get()` (framework code, not in the listed source) — the HTML
table shows page `p` of the queryset at the fixed page size
`paginate_by`, pages counted from 1. -/
def page_slice (qs : List Submission) (p : Nat) : List Submission :=
  ((qs.drop ((p - 1) * paginate_by)).take paginate_by)

/-- `get_object`: `Form.objects.all()` run through the
`construct_form_queryset` hooks, then `qs.get(pk=pk)`;
`Form.DoesNotExist` becomes `Http404`. -/
def get_object (db : DB) (pk : Nat) : Option Form :=
  (db.hook db.forms).find? (fun f => f.id = pk)

/-- `dispatch` followed by `get`: `get_object` runs first (issuing the form
lookup query); then the permission check raises `PermissionDenied` for a
user without list rights; then `get` parses the filter form and branches
on `action`, evaluating the submission queryset for each branch.  The
result pairs the trace of database queries, in order, with the
response. -/
def dispatch (db : DB) (req : Request) (canList : Bool) :
    List Ev × Response :=
  match get_object db req.pk with
  | none => ([Ev.formQuery], Response.notFound)
  | some form =>
      if canList then
        let qs := get_queryset form db.subs req.filter
        match req.action with
        | Action.csv =>
            ([Ev.formQuery, Ev.submissionQuery], Response.csvAttachment (csv_rows form qs))
        | Action.excel =>
            ([Ev.formQuery, Ev.submissionQuery], Response.xlsxAttachment (write_xlsx form qs))
        | Action.html =>
            ([Ev.formQuery, Ev.submissionQuery], Response.htmlPage (page_slice qs req.p))
      else ([Ev.formQuery], Response.denied)

/-- First-wins combination of optional values (`Option.or`),
for describing repeated `OrderedDict` assignment. -/
def orElseO : Option Value → Option Value → Option Value
  | some v, _ => some v
  | none, b => b

/-- The value of the LAST pair with key `k` in an assignment sequence. -/
def lastVal (k : String) : List (String × Value) → Option Value
  | [] => none
  | p :: ps => orElseO (lastVal k ps) (if p.1 = k then some p.2 else none)

/-- The keys of `ks` that are not in `seen`, kept in first-occurrence
order: the key sequence produced by `OrderedDict` assignment after the
keys `seen` are already present. -/
def newKeys : List String → List String → List String
  | _, [] => []
  | seen, k :: ks =>
      if k ∈ seen then newKeys seen ks else k :: newKeys (seen ++ [k]) ks

/-! ## OrderedDict lemmas -/

lemma orElseO_none (a : Option Value) : orElseO a none = a := by
  cases a <;> rfl

lemma any_key_iff (d : List (String × Value)) (k : String) :
    d.any (fun p => p.1 = k) = true ↔ k ∈ d.map Prod.fst := by
  constructor
  · intro h
    obtain ⟨p, hp, hp1⟩ := List.any_eq_true.mp h
    exact List.mem_map.mpr ⟨p, hp, by simpa using hp1⟩
  · intro h
    obtain ⟨p, hp, hp1⟩ := List.mem_map.mp h
    exact List.any_eq_true.mpr ⟨p, hp, by simp [hp1]⟩

lemma odInsertAll_cons (d : List (String × Value)) (p : String × Value)
    (ps : List (String × Value)) :
    odInsertAll d (p :: ps) = odInsertAll (odInsert d p.1 p.2) ps := rfl

lemma keys_map_update (d : List (String × Value)) (k : String) (v : Value) :
    (d.map (fun p => if p.1 = k then (k, v) else p)).map Prod.fst
      = d.map Prod.fst := by
  induction d with
  | nil => simp
  | cons p d ih =>
      by_cases hp : p.1 = k <;> simp [hp, ih]

lemma odInsertAll_keys (ps : List (String × Value)) :
    ∀ d : List (String × Value),
      (odInsertAll d ps).map Prod.fst
        = d.map Prod.fst ++ newKeys (d.map Prod.fst) (ps.map Prod.fst) := by
  induction ps with
  | nil =>
      intro d
      simp [odInsertAll, newKeys]
  | cons p ps ih =>
      intro d
      rw [odInsertAll_cons]
      by_cases h : p.1 ∈ d.map Prod.fst
      · have hany : d.any (fun q => q.1 = p.1) = true := (any_key_iff d p.1).mpr h
        have hins : odInsert d p.1 p.2
            = d.map (fun q => if q.1 = p.1 then (p.1, p.2) else q) := by
          simp [odInsert, hany]
        rw [hins, ih, keys_map_update]
        simp [newKeys, h]
      · have hany : ¬ d.any (fun q => q.1 = p.1) = true :=
          fun hc => h ((any_key_iff d p.1).mp hc)
        have hins : odInsert d p.1 p.2 = d ++ [(p.1, p.2)] := by
          simp [odInsert, hany]
        rw [hins, ih]
        simp [newKeys, h]

lemma find?_update_self (d : List (String × Value)) (k : String) (v : Value)
    (h : k ∈ d.map Prod.fst) :
    (d.map (fun p => if p.1 = k then (k, v) else p)).find? (fun p => p.1 = k)
      = some (k, v) := by
  induction d with
  | nil => simp at h
  | cons p d ih =>
      by_cases hp : p.1 = k
      · simp [List.find?, hp]
      · have hd : k ∈ d.map Prod.fst := by
          rcases List.mem_map.mp h with ⟨q, hq, hq1⟩
          rcases List.mem_cons.mp hq with rfl | hq2
          · exact absurd hq1 hp
          · exact List.mem_map.mpr ⟨q, hq2, hq1⟩
        simpa [List.find?, hp] using ih hd

lemma find?_update_other (d : List (String × Value)) (k0 k : String) (v : Value)
    (hk : k ≠ k0) :
    (d.map (fun p => if p.1 = k0 then (k0, v) else p)).find? (fun p => p.1 = k)
      = d.find? (fun p => p.1 = k) := by
  induction d with
  | nil => simp
  | cons p d ih =>
      by_cases hp : p.1 = k0
      · have : ¬ (k0 = k) := fun hc => hk hc.symm
        simp [List.find?, hp, this, ih]
      · by_cases hq : p.1 = k
        · simp [List.find?, hp, hq, hk, ih]
        · simp [List.find?, hp, hq, hk, ih]

lemma odGet_odInsert (d : List (String × Value)) (k0 k : String) (v : Value) :
    odGet (odInsert d k0 v) k = if k0 = k then some v else odGet d k := by
  by_cases hany : d.any (fun p => p.1 = k0) = true
  · have hmem := (any_key_iff d k0).mp hany
    rw [odInsert, if_pos hany]
    by_cases hk : k0 = k
    · subst hk
      rw [if_pos rfl, odGet, find?_update_self d k0 v hmem]
      rfl
    · rw [if_neg hk, odGet, odGet,
          find?_update_other d k0 k v (fun hc => hk hc.symm)]
  · rw [odInsert, if_neg hany]
    have hnone : d.find? (fun p => p.1 = k0) = none := by
      rw [List.find?_eq_none]
      intro x hx hc
      exact hany (List.any_eq_true.mpr ⟨x, hx, hc⟩)
    by_cases hk : k0 = k
    · subst hk
      rw [if_pos rfl, odGet, List.find?_append, hnone]
      simp [List.find?]
    · rw [if_neg hk, odGet, odGet, List.find?_append]
      have : ([(k0, v)].find? (fun p => p.1 = k)) = none := by
        simp [List.find?, hk]
      rw [this]
      simp

lemma odGet_odInsertAll (ps : List (String × Value)) :
    ∀ (d : List (String × Value)) (k : String),
      odGet (odInsertAll d ps) k = orElseO (lastVal k ps) (odGet d k) := by
  induction ps with
  | nil =>
      intro d k
      simp [odInsertAll, lastVal, orElseO]
  | cons p ps ih =>
      intro d k
      rw [odInsertAll_cons, ih, odGet_odInsert, lastVal]
      by_cases hp : p.1 = k
      · cases hl : lastVal k ps <;> simp [orElseO, hp]
      · cases hl : lastVal k ps <;> simp [orElseO, hp]

lemma odInsertAll_of_nodup (ps : List (String × Value)) :
    ∀ d : List (String × Value), (ps.map Prod.fst).Nodup →
      (∀ p ∈ ps, ∀ q ∈ d, q.1 ≠ p.1) → odInsertAll d ps = d ++ ps := by
  induction ps with
  | nil =>
      intro d _ _
      simp [odInsertAll]
  | cons p ps ih =>
      intro d hnd hdisj
      have hany : ¬ d.any (fun q => q.1 = p.1) = true := by
        intro hc
        obtain ⟨q, hq, hq1⟩ := List.any_eq_true.mp hc
        exact hdisj p (List.mem_cons_self p ps) q hq (by simpa using hq1)
      have hins : odInsert d p.1 p.2 = d ++ [(p.1, p.2)] := by
        simp [odInsert, hany]
      have hnd2 : (ps.map Prod.fst).Nodup := by
        simpa using hnd.of_cons
      have hnotin : p.1 ∉ ps.map Prod.fst := by
        have := hnd
        simp only [List.map_cons, List.nodup_cons] at this
        exact this.1
      have hdisj2 : ∀ r ∈ ps, ∀ q ∈ d ++ [(p.1, p.2)], q.1 ≠ r.1 := by
        intro r hr q hq
        rcases List.mem_append.mp hq with hq1 | hq1
        · exact hdisj r (List.mem_cons_of_mem p hr) q hq1
        · have : q = (p.1, p.2) := by simpa using hq1
          subst this
          intro hc
          exact hnotin (hc ▸ List.mem_map.mpr ⟨r, hr, rfl⟩)
      rw [odInsertAll_cons, hins, ih (d ++ [(p.1, p.2)]) hnd2 hdisj2]
      simp

lemma row_pairs_keys (form : Form) (s : Submission) :
    (row_pairs form s).map Prod.fst = form.dataFields.map Prod.snd := by
  simp [row_pairs, List.map_map, Function.comp]

lemma xlsx_row_dict_of_nodup (form : Form) (s : Submission)
    (h : (form.dataFields.map Prod.snd).Nodup) :
    xlsx_row_dict form s = row_pairs form s := by
  rw [xlsx_row_dict, odInsertAll_of_nodup (row_pairs form s) []
        (by rw [row_pairs_keys]; exact h) (by intro p _ q hq; simp at hq)]
  simp

/-! ## Claim theorems -/

/-- **C5**: when the form pk does not resolve after the
`construct_form_queryset` hooks run, the view raises `Http404` — the
response is `notFound` whatever the user's permissions, never a 200-style
response. -/
theorem C5_unknown_form_is_404 (db : DB) (req : Request) (canList : Bool)
    (h : get_object db req.pk = none) :
    dispatch db req canList = ([Ev.formQuery], Response.notFound) := by
  simp [dispatch, h]

/-- Witness for C5 at a concrete database containing no form with pk 7. -/
theorem C5_unknown_form_is_404_witness :
    dispatch (DB.mk [Form.mk 1 []] [] (fun qs => qs))
        (Request.mk 7 Action.html 1 (FilterForm.mk true none none)) true
      = ([Ev.formQuery], Response.notFound) :=
  C5_unknown_form_is_404 _ _ _ rfl

/-- **C6**: the CSV header row and the row-0 cells of the XLSX export both
equal the form's field labels with HTML tags stripped, in schema order. -/
theorem C6_headers_are_stripped_labels (form : Form) (qs : List Submission) :
    (csv_rows form qs).head? = some (form.dataFields.map (fun nl => strip_tags nl.2))
  ∧ (write_xlsx form qs).filter (fun w => w.1 = 0)
      = (form.dataFields.map (fun nl => strip_tags nl.2)).enum.map
          (fun ch => (0, ch.1, Value.str ch.2)) := by
  constructor
  · rfl
  · rw [write_xlsx, List.filter_append]
    have h1 : ((data_headings form).enum.map
        (fun ch => ((0 : Nat), ch.1, Value.str ch.2))).filter (fun w => w.1 = 0)
        = (data_headings form).enum.map (fun ch => ((0 : Nat), ch.1, Value.str ch.2)) := by
      apply List.filter_eq_self.mpr
      intro a ha
      simp only [List.mem_map] at ha
      obtain ⟨ch, _, rfl⟩ := ha
      simp
    have h2 : ((qs.enum.map (fun ri =>
        write_xlsx_row cfpEmpty (xlsx_row_dict form ri.2) (ri.1 + 1))).flatten).filter
          (fun w => w.1 = 0) = [] := by
      apply List.filter_eq_nil_iff.mpr
      intro a ha
      simp only [List.mem_flatten, List.mem_map] at ha
      obtain ⟨l, ⟨ri, _, rfl⟩, hal⟩ := ha
      simp only [write_xlsx_row, List.mem_map] at hal
      obtain ⟨cz, _, rfl⟩ := hal
      simp
    rw [h1, h2, List.append_nil]
    rfl

/-- **C7**: when the date-filter form does not validate, or when it
validates with both bounds absent, `get_queryset` applies no date filter
at all: the result is exactly the form's unfiltered submissions, and no
error is raised (the function is total and never produces an error
response). -/
theorem C7_invalid_filter_is_noop (form : Form) (subs : List Submission)
    (f : FilterForm) :
    (f.valid = false →
        get_queryset form subs f = subs.filter (fun s => s.formId = form.id))
  ∧ (f.date_from = none → f.date_to = none →
        get_queryset form subs f = subs.filter (fun s => s.formId = form.id)) := by
  constructor
  · intro hv
    simp [get_queryset, hv]
  · intro hf ht
    cases hval : f.valid <;> simp [get_queryset, hval, hf, ht]

/-- Witness for C7: an invalid filter form, and a valid one with both
bounds missing, leave a concrete one-submission queryset unfiltered. -/
theorem C7_invalid_filter_is_noop_witness :
    ((FilterForm.mk false (some 3) (some 4)).valid = false →
        get_queryset (Form.mk 1 []) [Submission.mk 1 86400 [] []]
            (FilterForm.mk false (some 3) (some 4))
          = [Submission.mk 1 86400 [] []].filter (fun s => s.formId = (Form.mk 1 []).id))
  ∧ ((FilterForm.mk true none none).date_from = none →
      (FilterForm.mk true none none).date_to = none →
        get_queryset (Form.mk 1 []) [Submission.mk 1 86400 [] []]
            (FilterForm.mk true none none)
          = [Submission.mk 1 86400 [] []].filter (fun s => s.formId = (Form.mk 1 []).id)) :=
  ⟨fun h => (C7_invalid_filter_is_noop _ _ _).1 h,
   fun h h2 => (C7_invalid_filter_is_noop _ _ _).2 h h2⟩

/-- **C1 counterexample**: the claim says a submission timestamped exactly
at midnight of the day after `date_to` is excluded; but the code filters
with `submit_time__lte=date_to + timedelta(days=1)` (`lte`, not `lt`), so
with `date_to = 0` a submission at timestamp `dateTs 1 = 86400` — midnight
of day `date_to + 1`, not strictly below the bound — is included. -/
theorem C1_midnight_after_included :
    Submission.mk 1 86400 [] [] ∈
        get_queryset (Form.mk 1 []) [Submission.mk 1 86400 [] []]
          (FilterForm.mk true none (some 0))
  ∧ (Submission.mk 1 86400 [] []).submitTime = dateTs (0 + 1)
  ∧ ¬ (Submission.mk 1 86400 [] []).submitTime < dateTs (0 + 1) := by
  refine ⟨?_, rfl, by decide⟩
  simp [get_queryset, dateTs]

/-- **C1 amended**: for a valid filter with both bounds present, the query
returns exactly the form's submissions with `date_from ≤ submit_time` and
`submit_time ≤ date_to + 1 day` — the upper bound is inclusive (`lte`), so
midnight of `date_to` is included and so is midnight of the day after
`date_to`. -/
theorem C1_date_filter_bounds (form : Form) (subs : List Submission)
    (f : FilterForm) (df dt : Int) (hv : f.valid = true)
    (hf : f.date_from = some df) (ht : f.date_to = some dt) (s : Submission) :
    s ∈ get_queryset form subs f ↔
      s ∈ subs ∧ s.formId = form.id ∧ dateTs df ≤ s.submitTime
        ∧ s.submitTime ≤ dateTs (dt + 1) := by
  simp only [get_queryset, hv, hf, ht, if_true]
  simp [List.mem_filter, and_assoc]
  tauto

/-- Witness for C1: with `date_from = date_to = 0`, both the submission at
midnight of day 0 and the one at midnight of day 1 are in the result. -/
theorem C1_date_filter_bounds_witness :
    (Submission.mk 1 0 [] [] ∈
        get_queryset (Form.mk 1 []) [Submission.mk 1 0 [] [], Submission.mk 1 86400 [] []]
          (FilterForm.mk true (some 0) (some 0)) ↔
      Submission.mk 1 0 [] [] ∈ [Submission.mk 1 0 [] [], Submission.mk 1 86400 [] []]
        ∧ (Submission.mk 1 0 [] []).formId = (Form.mk 1 []).id
        ∧ dateTs 0 ≤ (Submission.mk 1 0 [] []).submitTime
        ∧ (Submission.mk 1 0 [] []).submitTime ≤ dateTs (0 + 1)) :=
  C1_date_filter_bounds (Form.mk 1 [])
    [Submission.mk 1 0 [] [], Submission.mk 1 86400 [] []]
    (FilterForm.mk true (some 0) (some 0)) 0 0 rfl rfl rfl (Submission.mk 1 0 [] [])

/-- **C3 counterexample**: the claim says no database query executes before
the permission denial; but `dispatch` calls `get_object` (the form lookup
query) before checking `user_can_list`, so a denied request's query trace
already contains the form lookup. -/
theorem C3_form_query_precedes_denial :
    (dispatch (DB.mk [Form.mk 1 []] [] (fun qs => qs))
        (Request.mk 1 Action.html 1 (FilterForm.mk true none none)) false).2
      = Response.denied
  ∧ Ev.formQuery ∈
      (dispatch (DB.mk [Form.mk 1 []] [] (fun qs => qs))
        (Request.mk 1 Action.html 1 (FilterForm.mk true none none)) false).1 := by
  constructor
  · rfl
  · show Ev.formQuery ∈ [Ev.formQuery]
    simp

/-- **C3 amended**: for a user without list permission (on a resolvable
form), the view raises `PermissionDenied` after the form-lookup query but
before the submission queryset is evaluated, and no output is produced:
the run is exactly `([formQuery], denied)`. -/
theorem C3_denied_before_submission_query (db : DB) (req : Request)
    (form : Form) (h : get_object db req.pk = some form) :
    dispatch db req false = ([Ev.formQuery], Response.denied) := by
  simp [dispatch, h]

/-- Witness for C3 at a concrete database and request. -/
theorem C3_denied_before_submission_query_witness :
    dispatch (DB.mk [Form.mk 1 []] [] (fun qs => qs))
        (Request.mk 1 Action.csv 1 (FilterForm.mk true none none)) false
      = ([Ev.formQuery], Response.denied) :=
  C3_denied_before_submission_query _ _ (Form.mk 1 []) rfl

/-- **C2**: evaluation at a submission holding the list `["a", "b"]`: the
CSV cell and the XLSX cell both come out as `force_str` of the raw list —
the Python `str()` rendering `"['a', 'b']"` — not as the `", "`-joined
text `"a, b"` that the registered `list_to_str` preprocessor would
produce: `csv` never consults the preprocess tables and `write_xlsx`
coerces with `force_str` before dispatch, so the `list` entry of
`custom_value_preprocess` never fires. -/
theorem C2_list_cells_not_joined :
    csv_rows (Form.mk 2 [("choices", "Choices")])
        [Submission.mk 2 0 [("choices", Value.list ["a", "b"])] []]
      = [["Choices"], ["['a', 'b']"]]
  ∧ write_xlsx (Form.mk 2 [("choices", "Choices")])
        [Submission.mk 2 0 [("choices", Value.list ["a", "b"])] []]
      = [(0, 0, Value.str "Choices"), (1, 0, Value.str "['a', 'b']")]
  ∧ list_to_str ["a", "b"] = "a, b"
  ∧ ("['a', 'b']" : String) ≠ "a, b" := by
  refine ⟨by decide, by decide, by decide, by decide⟩

/-- **C4**: `get_preprocess_function` for the xlsx format resolves in
strict priority order — a field+format entry of `custom_field_preprocess`
wins outright (suppressing every value-class entry), else the value-class
table applies by the value's runtime class (a list maps to `list_to_str`,
joining with `", "`; a date or time maps to Python `None`, so
`write_xlsx_row` writes the value unchanged as a native cell), else the
default is `force_str`. -/
theorem C4_preprocess_priority (cfp : CFP) (field : String) (v : Value) :
    (∀ f, cfp field Fmt.xlsx = some f →
        get_preprocess_function cfp field v Fmt.xlsx = f)
  ∧ (cfp field Fmt.xlsx = none →
        (∀ xs, v = Value.list xs →
            get_preprocess_function cfp field v Fmt.xlsx = some Pre.listJoin
          ∧ applyPre (get_preprocess_function cfp field v Fmt.xlsx) v
              = Value.str (list_to_str xs))
      ∧ (isDateTime v = true →
            get_preprocess_function cfp field v Fmt.xlsx = none
          ∧ applyPre (get_preprocess_function cfp field v Fmt.xlsx) v = v)
      ∧ (isDateTime v = false → isList v = false →
            get_preprocess_function cfp field v Fmt.xlsx = some Pre.toStr
          ∧ applyPre (get_preprocess_function cfp field v Fmt.xlsx) v
              = Value.str (pyStr v))) := by
  refine ⟨?_, ?_⟩
  · intro f hf
    simp [get_preprocess_function, hf]
  · intro hn
    refine ⟨?_, ?_, ?_⟩
    · rintro xs rfl
      constructor <;>
        simp [get_preprocess_function, hn, isDateTime, isList, applyPre, joinAsList]
    · intro hd
      cases v <;>
        simp_all [get_preprocess_function, isDateTime, applyPre]
    · intro hd hl
      cases v <;>
        simp_all [get_preprocess_function, isDateTime, isList, applyPre]

/-- Witness for C4: a list is dispatched to `list_to_str` and joined, a
date passes through unchanged, a plain string falls to `force_str`, and a
field-specific entry overrides the list entry. -/
theorem C4_preprocess_priority_witness :
    (get_preprocess_function cfpEmpty "f" (Value.list ["a", "b"]) Fmt.xlsx
        = some Pre.listJoin
      ∧ applyPre (get_preprocess_function cfpEmpty "f" (Value.list ["a", "b"]) Fmt.xlsx)
          (Value.list ["a", "b"]) = Value.str (list_to_str ["a", "b"]))
  ∧ (get_preprocess_function cfpEmpty "f" (Value.date "2024-01-01") Fmt.xlsx = none
      ∧ applyPre (get_preprocess_function cfpEmpty "f" (Value.date "2024-01-01") Fmt.xlsx)
          (Value.date "2024-01-01") = Value.date "2024-01-01")
  ∧ (get_preprocess_function cfpEmpty "f" (Value.str "x") Fmt.xlsx = some Pre.toStr
      ∧ applyPre (get_preprocess_function cfpEmpty "f" (Value.str "x") Fmt.xlsx)
          (Value.str "x") = Value.str (pyStr (Value.str "x")))
  ∧ get_preprocess_function (fun _ _ => some (some Pre.toStr)) "f"
        (Value.list ["a", "b"]) Fmt.xlsx = some Pre.toStr :=
  ⟨((C4_preprocess_priority cfpEmpty "f" (Value.list ["a", "b"])).2 rfl).1 ["a", "b"] rfl,
   ((C4_preprocess_priority cfpEmpty "f" (Value.date "2024-01-01")).2 rfl).2.1 rfl,
   ((C4_preprocess_priority cfpEmpty "f" (Value.str "x")).2 rfl).2.2 rfl rfl,
   (C4_preprocess_priority (fun _ _ => some (some Pre.toStr)) "f"
       (Value.list ["a", "b"])).1 (some Pre.toStr) rfl⟩

/-- **C8**: the HTML listing is the page of the queryset selected by the
`p` parameter at the fixed page size `paginate_by = 25`, while the CSV and
XLSX responses are identical for any two values of `p` and the CSV body
holds one row per submission of the (unpaginated) queryset plus the
header. -/
theorem C8_pagination_and_full_export (db : DB) (req : Request) (form : Form)
    (p1 p2 : Nat) (h : get_object db req.pk = some form) :
    (dispatch db { req with action := Action.html } true).2
      = Response.htmlPage (page_slice (get_queryset form db.subs req.filter) req.p)
  ∧ (page_slice (get_queryset form db.subs req.filter) req.p).length
      = min paginate_by
          ((get_queryset form db.subs req.filter).length - (req.p - 1) * paginate_by)
  ∧ dispatch db { req with action := Action.csv, p := p1 } true
      = dispatch db { req with action := Action.csv, p := p2 } true
  ∧ dispatch db { req with action := Action.excel, p := p1 } true
      = dispatch db { req with action := Action.excel, p := p2 } true
  ∧ (dispatch db { req with action := Action.csv, p := p1 } true).2
      = Response.csvAttachment (csv_rows form (get_queryset form db.subs req.filter))
  ∧ (csv_rows form (get_queryset form db.subs req.filter)).length
      = (get_queryset form db.subs req.filter).length + 1 := by
  refine ⟨?_, ?_, ?_, ?_, ?_, ?_⟩
  · simp [dispatch, h]
  · simp [page_slice]
  · simp [dispatch, h]
  · simp [dispatch, h]
  · simp [dispatch, h]
  · simp [csv_rows]

/-- Witness for C8 at a concrete database, request and page numbers. -/
theorem C8_pagination_and_full_export_witness :
    (dispatch (DB.mk [Form.mk 1 [("name", "Name")]] [Submission.mk 1 0 [] []]
          (fun qs => qs))
        (Request.mk 1 Action.html 1 (FilterForm.mk false none none)) true).2
      = Response.htmlPage
          (page_slice
            (get_queryset (Form.mk 1 [("name", "Name")]) [Submission.mk 1 0 [] []]
              (FilterForm.mk false none none)) 1)
  ∧ dispatch (DB.mk [Form.mk 1 [("name", "Name")]] [Submission.mk 1 0 [] []]
        (fun qs => qs))
      (Request.mk 1 Action.csv 1 (FilterForm.mk false none none)) true
    = dispatch (DB.mk [Form.mk 1 [("name", "Name")]] [Submission.mk 1 0 [] []]
        (fun qs => qs))
      (Request.mk 1 Action.csv 2 (FilterForm.mk false none none)) true :=
  ⟨(C8_pagination_and_full_export
      (DB.mk [Form.mk 1 [("name", "Name")]] [Submission.mk 1 0 [] []] (fun qs => qs))
      (Request.mk 1 Action.html 1 (FilterForm.mk false none none))
      (Form.mk 1 [("name", "Name")]) 1 2 rfl).1,
   (C8_pagination_and_full_export
      (DB.mk [Form.mk 1 [("name", "Name")]] [Submission.mk 1 0 [] []] (fun qs => qs))
      (Request.mk 1 Action.csv 1 (FilterForm.mk false none none))
      (Form.mk 1 [("name", "Name")]) 1 2 rfl).2.2.1⟩

/-- **C9**: a schema field whose name is absent from the submission's data
mapping renders as the literal text `"None"` — `force_str(None)` — in the
CSV cell at that field's column and (labels being distinct) as the
corresponding XLSX cell, rather than as an empty cell. -/
theorem C9_missing_value_renders_None (form : Form) (s : Submission) (i : Nat)
    (hi : i < form.dataFields.length)
    (hnodup : (form.dataFields.map Prod.snd).Nodup)
    (hmiss : getData s (form.dataFields.get ⟨i, hi⟩).1 = none) :
    ((csv_rows form [s])[1]?).bind (fun r => r[i]?) = some "None"
  ∧ (1, i, Value.str "None") ∈ write_xlsx form [s] := by
  have hm : getData s (form.dataFields[i]).1 = none := by
    simpa [List.get_eq_getElem] using hmiss
  constructor
  · have h1 : (csv_rows form [s])[1]?
        = some (form.dataFields.map (fun nl => forceStrOpt (getData s nl.1))) := rfl
    rw [h1]
    show (form.dataFields.map (fun nl => forceStrOpt (getData s nl.1)))[i]? = some "None"
    rw [List.getElem?_map, List.getElem?_eq_getElem hi]
    simp [hm, forceStrOpt]
  · have hrp : xlsx_row_dict form s = row_pairs form s :=
      xlsx_row_dict_of_nodup form s hnodup
    have hgl : (row_pairs form s)[i]?
        = some ((form.dataFields.get ⟨i, hi⟩).2, Value.str "None") := by
      rw [row_pairs, List.getElem?_map, List.getElem?_eq_getElem hi]
      simp [hm, forceStrOpt, List.get_eq_getElem]
    have henum : (i, ((form.dataFields.get ⟨i, hi⟩).2, Value.str "None"))
        ∈ (row_pairs form s).enum :=
      List.mk_mem_enum_iff_getElem?.mpr hgl
    rw [write_xlsx]
    apply List.mem_append_right
    apply List.mem_flatten.mpr
    refine ⟨write_xlsx_row cfpEmpty (xlsx_row_dict form s) 1, ?_, ?_⟩
    · simp [List.enum, List.enumFrom]
    · rw [hrp, write_xlsx_row]
      exact List.mem_map.mpr
        ⟨(i, ((form.dataFields.get ⟨i, hi⟩).2, Value.str "None")), henum, rfl⟩

/-- Witness for C9: a two-field form whose submission lacks the second
field's key renders `"None"` in column 1 of both exports. -/
theorem C9_missing_value_renders_None_witness :
    ((csv_rows (Form.mk 4 [("a", "A"), ("b", "B")])
        [Submission.mk 4 0 [("a", Value.str "x")] []])[1]?).bind (fun r => r[1]?)
      = some "None"
  ∧ (1, 1, Value.str "None") ∈
      write_xlsx (Form.mk 4 [("a", "A"), ("b", "B")])
        [Submission.mk 4 0 [("a", Value.str "x")] []] :=
  C9_missing_value_renders_None (Form.mk 4 [("a", "A"), ("b", "B")])
    (Submission.mk 4 0 [("a", Value.str "x")] []) 1 (by decide) (by decide) rfl

/-- **C10**: the XLSX data row is an `OrderedDict` keyed by raw field
label: its key sequence is the distinct labels in first-occurrence order
(`newKeys [] labels`), each label's cell holds the value of the LAST
schema field carrying that label, and on a concrete form whose two fields
share a label the data row has one cell under a two-cell header row, with
the second field's value sitting below the first field's heading. -/
theorem C10_xlsx_row_label_collision (form : Form) (s : Submission) :
    (xlsx_row_dict form s).map Prod.fst
        = newKeys [] (form.dataFields.map Prod.snd)
  ∧ (∀ label, odGet (xlsx_row_dict form s) label = lastVal label (row_pairs form s))
  ∧ (data_headings (Form.mk 3 [("first", "L"), ("second", "L")])).length = 2
  ∧ write_xlsx (Form.mk 3 [("first", "L"), ("second", "L")])
        [Submission.mk 3 0 [("first", Value.str "1"), ("second", Value.str "2")] []]
      = [(0, 0, Value.str "L"), (0, 1, Value.str "L"), (1, 0, Value.str "2")] := by
  refine ⟨?_, ?_, by decide, by decide⟩
  · rw [xlsx_row_dict, odInsertAll_keys, row_pairs_keys]
    simp
  · intro label
    rw [xlsx_row_dict, odGet_odInsertAll]
    rw [show odGet [] label = none from rfl, orElseO_none]

end Streamforms
